import Mathlib

/-!
Verification development for the `ai-visualization-front` repository.

Part 1 embeds the event bus (`src/services/events/EventBus.ts`):
a `Map<string, EventListener[]>` from event names to arrays of listeners.
JavaScript arrays are mutable objects referenced from the map, and
`EventBus.emit` captures such a reference before running callbacks, so the
embedding uses an explicit heap of arrays addressed by ids: pushes mutate an
array in place, while `off`'s `filter` allocates a fresh array.  Callbacks are
opaque function references, embedded as ids together with an environment
assigning each id a behaviour (a list of re-entrant bus operations plus a flag
saying whether the invocation throws).

Part 2 embeds the engine composable (`useThreeEngine` in
`src/composables/core/three/README.md`): graphics resources are opaque ids,
the DOM container is the list of canvases appended to it, and every engine
operation returns the updated state, the updated bus, and the list of event
names it published.
-/

/-- One entry of `EventBus.listeners`' arrays: the `EventListener` record
`{ callback, once, priority }`.  `id` is the identity of the record object
(fresh per `on` call, used by `emit`'s `toRemove.includes`), `cbId` the
identity of the callback function reference (used by `off`'s `!==`). -/
structure Listener where
  id : Nat
  cbId : Nat
  once : Bool
  priority : Int
deriving DecidableEq

/-- The `EventBus` state: `entries` is the `Map` from event name to the id of
its listener array, `heap` stores each array's current contents (arrays
detached by `off`/`delete` stay in the heap, as in a garbage-collected
runtime), and `nextArr`/`nextLid` supply fresh ids. -/
structure Bus where
  entries : List (String × Nat)
  heap : List (Nat × List Listener)
  nextArr : Nat
  nextLid : Nat
deriving DecidableEq

def emptyBus : Bus := ⟨[], [], 0, 0⟩

/-- Embeds `Map.get`: first (unique) binding of the key. -/
def lookupEntry (entries : List (String × Nat)) (ev : String) : Option Nat :=
  match entries with
  | [] => none
  | (k, v) :: rest => if k = ev then some v else lookupEntry rest ev

/-- Embeds `Map.set`: replace the binding in place, or append a new one. -/
def entriesSet (entries : List (String × Nat)) (ev : String) (aid : Nat) :
    List (String × Nat) :=
  match entries with
  | [] => [(ev, aid)]
  | (k, v) :: rest =>
      if k = ev then (ev, aid) :: rest else (k, v) :: entriesSet rest ev aid

/-- Embeds `Map.delete`. -/
def entriesDelete (entries : List (String × Nat)) (ev : String) :
    List (String × Nat) :=
  entries.filter (fun p => p.1 ≠ ev)

/-- Dereference an array id. -/
def heapLookup (heap : List (Nat × List Listener)) (aid : Nat) :
    Option (List Listener) :=
  match heap with
  | [] => none
  | (k, v) :: rest => if k = aid then some v else heapLookup rest aid

/-- Overwrite the contents of an existing array object (used for `push`). -/
def heapSet (heap : List (Nat × List Listener)) (aid : Nat)
    (ls : List Listener) : List (Nat × List Listener) :=
  match heap with
  | [] => []
  | (k, v) :: rest =>
      if k = aid then (k, ls) :: rest else (k, v) :: heapSet rest aid ls

/-- The listeners currently registered for `ev` (empty when absent). -/
def listenersOf (bus : Bus) (ev : String) : List Listener :=
  match lookupEntry bus.entries ev with
  | none => []
  | some aid => (heapLookup bus.heap aid).getD []

/-- Embeds `EventBus.on`: build the listener record, create an empty array for the
event if absent, then `push` onto the (possibly shared) array. -/
def busOn (bus : Bus) (ev : String) (cb : Nat) (onceFlag : Bool)
    (priority : Int) : Bus :=
  let l : Listener := ⟨bus.nextLid, cb, onceFlag, priority⟩
  match lookupEntry bus.entries ev with
  | some aid =>
      { bus with
        heap := heapSet bus.heap aid (((heapLookup bus.heap aid).getD []) ++ [l])
        nextLid := bus.nextLid + 1 }
  | none =>
      { bus with
        entries := entriesSet bus.entries ev bus.nextArr
        heap := bus.heap ++ [(bus.nextArr, [l])]
        nextArr := bus.nextArr + 1
        nextLid := bus.nextLid + 1 }

/-- Embeds `EventBus.once`: `on(event, callback, { once: true })` (priority defaults
to 0). -/
def busOnce (bus : Bus) (ev : String) (cb : Nat) : Bus :=
  busOn bus ev cb true 0

/-- Embeds `EventBus.off`: no callback deletes the whole entry; otherwise keep the
listeners whose callback reference differs, deleting the entry when none
remain, else storing the `filter` result as a fresh array. -/
def busOff (bus : Bus) (ev : String) (cb : Option Nat) : Bus :=
  match lookupEntry bus.entries ev with
  | none => bus
  | some aid =>
    match cb with
    | none => { bus with entries := entriesDelete bus.entries ev }
    | some c =>
        let ls := (heapLookup bus.heap aid).getD []
        let filtered := ls.filter (fun l => l.cbId ≠ c)
        if filtered.isEmpty then
          { bus with entries := entriesDelete bus.entries ev }
        else
          { bus with
            entries := entriesSet bus.entries ev bus.nextArr
            heap := bus.heap ++ [(bus.nextArr, filtered)]
            nextArr := bus.nextArr + 1 }

/-- Embeds `EventBus.clear`: `listeners.clear()`. -/
def busClear (bus : Bus) : Bus := { bus with entries := [] }

/-- Embeds `EventBus.getListenerCount`: one event's array length (0 when absent), or
the sum over all map values. -/
def busCount (bus : Bus) : Option String → Nat
  | some ev =>
      match lookupEntry bus.entries ev with
      | some aid => ((heapLookup bus.heap aid).getD []).length
      | none => 0
  | none =>
      (bus.entries.map (fun p => ((heapLookup bus.heap p.2).getD []).length)).sum

/-- The stable descending-priority sort `[...eventListeners].toSorted((a, b) =>
b.priority - a.priority)`: ECMAScript `toSorted` is a stable sort, uniquely
characterised by the permutation, sortedness and tie-stability properties
proved below, so any stable implementation embeds it; insertion of the
earlier-registered element in front of the ties models the tie-breaking. -/
def insertByPriority (l : Listener) : List Listener → List Listener
  | [] => [l]
  | x :: xs =>
      if x.priority ≤ l.priority then l :: x :: xs
      else x :: insertByPriority l xs

def sortListeners : List Listener → List Listener
  | [] => []
  | x :: xs => insertByPriority x (sortListeners xs)

/-- A re-entrant bus operation a callback may perform while a dispatch is in
progress (`on`/`once` via the flag, and `off`). -/
inductive BusAct where
  | actOn (ev : String) (cb : Nat) (onceFlag : Bool) (priority : Int)
  | actOff (ev : String) (cb : Option Nat)
deriving DecidableEq

/-- Behaviour of one callback function: the bus operations it performs when
invoked, and whether the invocation ends by throwing. -/
structure CbSpec where
  acts : List BusAct
  throws : Bool

/-- Environment mapping callback-function ids to behaviours. -/
def CbEnv : Type := Nat → CbSpec

def runAct (bus : Bus) : BusAct → Bus
  | .actOn ev cb o p => busOn bus ev cb o p
  | .actOff ev cb => busOff bus ev cb

def runActs (bus : Bus) (acts : List BusAct) : Bus := acts.foldl runAct bus

/-- Result of the `forEach` loop in `emit`: the evolved bus, the listeners
invoked in order (`trace`), the `toRemove` batch, and the callback ids whose
invocation threw (caught and logged by `emit`, hence `errors`). -/
structure DispatchResult where
  bus : Bus
  trace : List Listener
  toRemove : List Listener
  errors : List Nat

/-- The `sortedListeners.forEach` loop: invoke each callback inside
`try`/`catch`; a normal return of a `once` listener pushes it onto `toRemove`,
a throw skips that push and is logged instead. -/
def dispatchLoop (env : CbEnv) : List Listener → Bus → DispatchResult
  | [], bus => ⟨bus, [], [], []⟩
  | l :: rest, bus =>
      let s := env l.cbId
      let bus1 := runActs bus s.acts
      let r := dispatchLoop env rest bus1
      ⟨r.bus, l :: r.trace,
        (if !s.throws && l.once then [l] else []) ++ r.toRemove,
        (if s.throws then [l.cbId] else []) ++ r.errors⟩

structure EmitResult where
  bus : Bus
  trace : List Listener
  errors : List Nat

/-- Embeds `EventBus.emit`: return early when the event is absent or its array empty;
otherwise run the callbacks over a sorted copy of the array, then remove the
`toRemove` batch by filtering the captured array reference (which reflects
pushes made during the dispatch but not replacements installed by `off`),
deleting the entry when nothing remains.  The `data` payload is passed to the
callbacks and never inspected by the bus itself. -/
def busEmit (env : CbEnv) (bus : Bus) (ev : String) (_data : Int) : EmitResult :=
  match lookupEntry bus.entries ev with
  | none => ⟨bus, [], []⟩
  | some aid =>
      let ls := (heapLookup bus.heap aid).getD []
      if ls.isEmpty then ⟨bus, [], []⟩
      else
        let r := dispatchLoop env (sortListeners ls) bus
        if r.toRemove.isEmpty then ⟨r.bus, r.trace, r.errors⟩
        else
          let cur := (heapLookup r.bus.heap aid).getD []
          let remaining :=
            cur.filter (fun l => !(r.toRemove.any (fun t => t.id = l.id)))
          if remaining.isEmpty then
            ⟨{ r.bus with entries := entriesDelete r.bus.entries ev },
              r.trace, r.errors⟩
          else
            ⟨{ r.bus with
                entries := entriesSet r.bus.entries ev r.bus.nextArr
                heap := r.bus.heap ++ [(r.bus.nextArr, remaining)]
                nextArr := r.bus.nextArr + 1 },
              r.trace, r.errors⟩

/-- Top-level bus API calls, for stating invariants over all call sequences. -/
inductive BusOp where
  | opOn (ev : String) (cb : Nat) (onceFlag : Bool) (priority : Int)
  | opOnce (ev : String) (cb : Nat)
  | opOff (ev : String) (cb : Option Nat)
  | opEmit (ev : String) (data : Int)
  | opClear
deriving DecidableEq

def runOp (env : CbEnv) (bus : Bus) : BusOp → Bus
  | .opOn ev cb o p => busOn bus ev cb o p
  | .opOnce ev cb => busOnce bus ev cb
  | .opOff ev cb => busOff bus ev cb
  | .opEmit ev d => (busEmit env bus ev d).bus
  | .opClear => busClear bus

def runOps (env : CbEnv) (bus : Bus) (ops : List BusOp) : Bus :=
  ops.foldl (runOp env) bus

/-- Registry well-formedness: map keys are unique (it is a `Map`), every heap
array id is below the allocation counter, and no map entry refers to a
missing or empty listener array. -/
def busWF (bus : Bus) : Prop :=
  (bus.entries.map Prod.fst).Nodup ∧
  (∀ p ∈ bus.heap, p.1 < bus.nextArr) ∧
  (∀ q ∈ bus.entries, ((heapLookup bus.heap q.2).getD []) ≠ [])

instance (bus : Bus) : Decidable (busWF bus) := by
  unfold busWF
  infer_instance

example : listenersOf (busOn emptyBus "x" 1 false 0) "x" =
    [⟨0, 1, false, 0⟩] := rfl

example :
    (busEmit (fun _ => ⟨[], false⟩)
      (busOn (busOn (busOn emptyBus "x" 1 false 0) "x" 2 false 5)
        "x" 3 false 0) "x" 1).trace.map Listener.cbId = [2, 1, 3] := rfl

/-!
Engine embedding (`useThreeEngine`).  Scene-graph objects carry an id, their
constructor class (for the `instanceof` tests in `clear`), an optional
geometry resource id, material resource ids, and children (for `traverse`).
-/

inductive ObjKind where
  | light
  | gridHelper
  | axesHelper
  | mesh
  | group
deriving DecidableEq

inductive Obj where
  | node (id : Nat) (kind : ObjKind) (geom : Option Nat) (mats : List Nat)
      (children : List Obj)

def Obj.id : Obj → Nat
  | .node i _ _ _ _ => i

def Obj.kind : Obj → ObjKind
  | .node _ k _ _ _ => k

/-- Permanent helpers: `clear` keeps `THREE.Light`, `THREE.GridHelper` and `THREE.AxesHelper`
instances. -/
def Obj.isPermanentHelper (o : Obj) : Bool :=
  o.kind = ObjKind.light || o.kind = ObjKind.gridHelper ||
    o.kind = ObjKind.axesHelper

mutual

/-- Embeds `object.traverse`: for every `THREE.Mesh` in the subtree (self first,
depth-first), dispose its geometry and its material(s); the result is the
list of resource ids disposed, in call order. -/
def Obj.disposals : Obj → List Nat
  | .node _ k g m cs =>
      (if k = ObjKind.mesh then g.toList ++ m else []) ++ Obj.disposalsList cs

def Obj.disposalsList : List Obj → List Nat
  | [] => []
  | o :: os => Obj.disposals o ++ Obj.disposalsList os

end

structure Scene where
  id : Nat
  children : List Obj

/-- The engine's reactive refs and internal locals.  Graphics objects are
opaque ids; `appendedCanvases` is the list of renderer canvases currently
attached to the DOM container (`container.append(renderer.domElement)` adds
one, `renderer.domElement.remove()` removes its own); `disposedResources`
collects the geometry/material ids on which `.dispose()` was called. -/
structure EngineState where
  scene : Option Scene
  renderer : Option Nat
  camera : Option Nat
  controls : Option Nat
  isInitialized : Bool
  isRendering : Bool
  error : Option String
  container : Option Nat
  appendedCanvases : List Nat
  resizeObserver : Bool
  animationId : Option Nat
  disposedResources : List Nat
  frames : Nat
  nextId : Nat

def initialEngineState : EngineState :=
  { scene := none, renderer := none, camera := none, controls := none
    isInitialized := false, isRendering := false, error := none
    container := none, appendedCanvases := [], resizeObserver := false
    animationId := none, disposedResources := [], frames := 0, nextId := 0 }

/-- Result of one engine operation: the new engine state, the new bus state,
and the event names the engine published (in order) during the call. -/
structure EngineStep where
  state : EngineState
  bus : Bus
  published : List String

/-- Embeds `startRenderLoop`: no-op when already rendering or not initialized;
otherwise set the flag and schedule the first animation frame. -/
def engineStartRenderLoop (st : EngineState) : EngineState :=
  if st.isRendering || !st.isInitialized then st
  else { st with isRendering := true, animationId := some st.nextId,
                 nextId := st.nextId + 1 }

/-- Embeds `stopRenderLoop`: cancel the pending frame if any, clear the flag. -/
def engineStopRenderLoop (st : EngineState) : EngineState :=
  let st1 :=
    match st.animationId with
    | some _ => { st with animationId := none }
    | none => st
  { st1 with isRendering := false }

/-- Embeds `clear()`: no-op without a scene; otherwise remove every child that is not
a light/grid/axes helper, dispose the removed subtrees' mesh geometries and
materials, and publish `engine:sceneCleared`. -/
def engineClear (env : CbEnv) (st : EngineState) (bus : Bus) : EngineStep :=
  match st.scene with
  | none => ⟨st, bus, []⟩
  | some s =>
      let removed := s.children.filter (fun o => !o.isPermanentHelper)
      let kept := s.children.filter (fun o => o.isPermanentHelper)
      ⟨{ st with
          scene := some ⟨s.id, kept⟩
          disposedResources := st.disposedResources ++ Obj.disposalsList removed },
        (busEmit env bus "engine:sceneCleared" 0).bus, ["engine:sceneCleared"]⟩

/-- Embeds `render()`: return silently unless scene, camera and renderer are all
present; otherwise draw one frame and publish `engine:render` only when the
bus reports at least one listener for it. -/
def engineRender (env : CbEnv) (st : EngineState) (bus : Bus) : EngineStep :=
  if st.scene.isNone || st.camera.isNone || st.renderer.isNone then ⟨st, bus, []⟩
  else
    let st1 := { st with frames := st.frames + 1 }
    if 0 < busCount bus (some "engine:render") then
      ⟨st1, (busEmit env bus "engine:render" 0).bus, ["engine:render"]⟩
    else ⟨st1, bus, []⟩

/-- Embeds `add(object)`: no-op without a scene; otherwise `scene.add` and publish
`engine:objectAdded`. -/
def engineAdd (env : CbEnv) (st : EngineState) (bus : Bus) (o : Obj) :
    EngineStep :=
  match st.scene with
  | none => ⟨st, bus, []⟩
  | some s =>
      ⟨{ st with scene := some ⟨s.id, s.children ++ [o]⟩ },
        (busEmit env bus "engine:objectAdded" 0).bus, ["engine:objectAdded"]⟩

/-- Embeds `initialize(container)`: clear `error`; a missing container or missing
WebGL support records the error and publishes `engine:error`.  Otherwise
create a fresh scene, renderer (appending its canvas to the container),
camera and controls, add the three baseline lights, attach the resize
observer unless `autoResize` is `false`, mark initialized, start the render
loop unless `autoRender` is `false`, and publish `engine:initialized`.
It performs no already-initialized check. -/
def engineInit (env : CbEnv) (st : EngineState) (bus : Bus)
    (container : Option Nat) (webglOK : Bool)
    (autoRender : Bool) (autoResize : Bool) : EngineStep :=
  let st0 := { st with error := none }
  match container with
  | none =>
      ⟨{ st0 with error := some "Container element is required" },
        (busEmit env bus "engine:error" 0).bus, ["engine:error"]⟩
  | some c =>
    if !webglOK then
      ⟨{ st0 with error := some "WebGL is not supported in this browser" },
        (busEmit env bus "engine:error" 0).bus, ["engine:error"]⟩
    else
      let sceneId := st0.nextId
      let rendererId := st0.nextId + 1
      let cameraId := st0.nextId + 2
      let controlsId := st0.nextId + 3
      let ambientLight := Obj.node (st0.nextId + 4) ObjKind.light none [] []
      let directionalLight := Obj.node (st0.nextId + 5) ObjKind.light none [] []
      let fillLight := Obj.node (st0.nextId + 6) ObjKind.light none [] []
      let st1 :=
        { st0 with
          container := some c
          scene := some ⟨sceneId, [ambientLight, directionalLight, fillLight]⟩
          renderer := some rendererId
          appendedCanvases := st0.appendedCanvases ++ [rendererId]
          camera := some cameraId
          controls := some controlsId
          resizeObserver := if autoResize then true else st0.resizeObserver
          isInitialized := true
          nextId := st0.nextId + 7 }
      let st2 := if autoRender then engineStartRenderLoop st1 else st1
      ⟨st2, (busEmit env bus "engine:initialized" 0).bus, ["engine:initialized"]⟩

/-- Embeds `dispose()`: stop the loop, disconnect the observer, dispose/null the
controls, `clear()` the scene (when present) then null it, dispose the
renderer and detach its canvas, null camera and container, reset the flags,
and publish `engine:disposed` — every step guards on presence, and the final
emit runs unconditionally. -/
def engineDispose (env : CbEnv) (st : EngineState) (bus : Bus) : EngineStep :=
  let st1 := { engineStopRenderLoop st with
               resizeObserver := false
               controls := none }
  let cleared : EngineStep :=
    match st1.scene with
    | none => ⟨st1, bus, []⟩
    | some _ =>
        let c := engineClear env st1 bus
        ⟨{ c.state with scene := none }, c.bus, c.published⟩
  let st2 := cleared.state
  let st3 :=
    match st2.renderer with
    | none => st2
    | some rid =>
        { st2 with renderer := none
                   appendedCanvases := st2.appendedCanvases.filter (fun x => x ≠ rid) }
  let st4 := { st3 with
               camera := none
               container := none
               isInitialized := false
               error := none }
  ⟨st4, (busEmit env cleared.bus "engine:disposed" 0).bus,
    cleared.published ++ ["engine:disposed"]⟩

/-! Lemmas about the stable descending-priority sort. -/

theorem insertByPriority_perm (l : Listener) (ls : List Listener) :
    List.Perm (insertByPriority l ls) (l :: ls) := by
  induction ls with
  | nil => rfl
  | cons x xs ih =>
    simp only [insertByPriority]
    split
    · exact List.Perm.refl _
    · exact (ih.cons x).trans (List.Perm.swap l x xs)

theorem sortListeners_perm (ls : List Listener) :
    List.Perm (sortListeners ls) ls := by
  induction ls with
  | nil => rfl
  | cons x xs ih =>
    exact (insertByPriority_perm x (sortListeners xs)).trans (ih.cons x)

theorem insertByPriority_pairwise (l : Listener) {ls : List Listener}
    (h : ls.Pairwise (fun a b => b.priority ≤ a.priority)) :
    (insertByPriority l ls).Pairwise (fun a b => b.priority ≤ a.priority) := by
  induction ls with
  | nil => simp [insertByPriority]
  | cons x xs ih =>
    rcases List.pairwise_cons.mp h with ⟨hx, hxs⟩
    simp only [insertByPriority]
    split
    · next hle =>
      refine List.pairwise_cons.mpr ⟨?_, h⟩
      intro b hb
      rcases List.mem_cons.mp hb with rfl | hb
      · exact hle
      · exact le_trans (hx b hb) hle
    · next hgt =>
      refine List.pairwise_cons.mpr ⟨?_, ih hxs⟩
      intro b hb
      rcases List.mem_cons.mp ((insertByPriority_perm l xs).mem_iff.mp hb) with
        rfl | hb
      · exact le_of_not_le hgt
      · exact hx b hb

theorem sortListeners_pairwise (ls : List Listener) :
    (sortListeners ls).Pairwise (fun a b => b.priority ≤ a.priority) := by
  induction ls with
  | nil => simp [sortListeners]
  | cons x xs ih => exact insertByPriority_pairwise x ih

theorem insertByPriority_filter (l : Listener) (ls : List Listener) (p : Int) :
    (insertByPriority l ls).filter (fun x => x.priority == p) =
      (if l.priority == p then [l] else []) ++
        ls.filter (fun x => x.priority == p) := by
  induction ls with
  | nil => cases h : (l.priority == p) <;> simp [insertByPriority, h]
  | cons x xs ih =>
    simp only [insertByPriority]
    split
    · next hle => cases h : (l.priority == p) <;> simp [List.filter_cons, h]
    · next hgt =>
      by_cases hl : l.priority = p
      · by_cases hx : x.priority = p
        · exact absurd (lt_of_not_le hgt) (by rw [hl, hx]; exact lt_irrefl p)
        · simp [List.filter_cons, hl, hx, ih]
      · simp [List.filter_cons, hl, ih]

theorem sortListeners_filter (ls : List Listener) (p : Int) :
    (sortListeners ls).filter (fun x => x.priority == p) =
      ls.filter (fun x => x.priority == p) := by
  induction ls with
  | nil => rfl
  | cons x xs ih =>
    simp only [sortListeners, insertByPriority_filter, ih, List.filter_cons]
    cases h : (x.priority == p) <;> simp [h]

/-! Lemmas about the dispatch loop and `emit`. -/

theorem dispatchLoop_trace (env : CbEnv) (ls : List Listener) (bus : Bus) :
    (dispatchLoop env ls bus).trace = ls := by
  induction ls generalizing bus with
  | nil => rfl
  | cons l rest ih => simp [dispatchLoop, ih]

theorem dispatchLoop_errors (env : CbEnv) (ls : List Listener) (bus : Bus) :
    (dispatchLoop env ls bus).errors =
      (ls.filter (fun l => (env l.cbId).throws)).map Listener.cbId := by
  induction ls generalizing bus with
  | nil => rfl
  | cons l rest ih =>
    simp only [dispatchLoop, List.filter_cons]
    cases h : (env l.cbId).throws <;> simp [h, ih]

theorem busEmit_trace (env : CbEnv) (bus : Bus) (ev : String) (d : Int) :
    (busEmit env bus ev d).trace = sortListeners (listenersOf bus ev) := by
  cases h : lookupEntry bus.entries ev with
  | none => simp [busEmit, listenersOf, h, sortListeners]
  | some aid =>
    simp only [busEmit, listenersOf, h]
    by_cases he : ((heapLookup bus.heap aid).getD []).isEmpty = true
    · simp [he, List.isEmpty_iff.mp he, sortListeners]
    · simp only [if_neg he]
      split <;> (try dsimp only) <;> (try split) <;> simp [dispatchLoop_trace]

theorem busEmit_errors (env : CbEnv) (bus : Bus) (ev : String) (d : Int) :
    (busEmit env bus ev d).errors =
      ((sortListeners (listenersOf bus ev)).filter
        (fun l => (env l.cbId).throws)).map Listener.cbId := by
  cases h : lookupEntry bus.entries ev with
  | none => simp [busEmit, listenersOf, h, sortListeners]
  | some aid =>
    simp only [busEmit, listenersOf, h]
    by_cases he : ((heapLookup bus.heap aid).getD []).isEmpty = true
    · simp [he, List.isEmpty_iff.mp he, sortListeners]
    · simp only [if_neg he]
      split <;> (try dsimp only) <;> (try split) <;> simp [dispatchLoop_errors]

/-! Association-list and heap lemmas. -/

theorem lookupEntry_mem {es : List (String × Nat)} {ev : String} {a : Nat}
    (h : lookupEntry es ev = some a) : (ev, a) ∈ es := by
  induction es with
  | nil => simp [lookupEntry] at h
  | cons p rest ih =>
    rcases p with ⟨k, v⟩
    by_cases hk : k = ev
    · subst hk
      have h' : v = a := by simpa [lookupEntry] using h
      subst h'
      exact List.mem_cons_self _ _
    · simp only [lookupEntry, if_neg hk] at h
      exact List.mem_cons_of_mem _ (ih h)

theorem lookupEntry_none_iff {es : List (String × Nat)} {ev : String} :
    lookupEntry es ev = none ↔ ev ∉ es.map Prod.fst := by
  induction es with
  | nil => simp [lookupEntry]
  | cons p rest ih =>
    rcases p with ⟨k, v⟩
    by_cases hk : k = ev
    · subst hk; simp [lookupEntry]
    · simp only [lookupEntry, if_neg hk, List.map_cons, List.mem_cons]
      rw [ih]
      constructor
      · intro hni hor
        rcases hor with h1 | h1
        · exact hk h1.symm
        · exact hni h1
      · intro hni h1
        exact hni (Or.inr h1)

theorem lookupEntry_eq_of_mem_nodup {es : List (String × Nat)} {ev : String}
    {a : Nat} (hn : (es.map Prod.fst).Nodup) (h : (ev, a) ∈ es) :
    lookupEntry es ev = some a := by
  induction es with
  | nil => simp at h
  | cons p rest ih =>
    rcases p with ⟨k, v⟩
    rcases List.mem_cons.mp h with heq | hmem
    · cases heq
      simp [lookupEntry]
    · have hk : k ≠ ev := by
        rintro rfl
        exact (List.nodup_cons.mp hn).1 (List.mem_map.mpr ⟨(k, a), hmem, rfl⟩)
      simp only [lookupEntry, if_neg hk]
      exact ih (List.nodup_cons.mp hn).2 hmem

theorem lookupEntry_entriesSet_self (es : List (String × Nat)) (ev : String)
    (aid : Nat) : lookupEntry (entriesSet es ev aid) ev = some aid := by
  induction es with
  | nil => simp [entriesSet, lookupEntry]
  | cons p rest ih =>
    rcases p with ⟨k, v⟩
    by_cases hk : k = ev
    · simp [entriesSet, hk, lookupEntry]
    · simp [entriesSet, hk, lookupEntry, ih]

theorem lookupEntry_entriesSet_ne {es : List (String × Nat)} {ev ev' : String}
    (aid : Nat) (h : ev' ≠ ev) :
    lookupEntry (entriesSet es ev aid) ev' = lookupEntry es ev' := by
  have hne : ev ≠ ev' := fun hh => h hh.symm
  induction es with
  | nil => simp only [entriesSet, lookupEntry, if_neg hne]
  | cons p rest ih =>
    rcases p with ⟨k, v⟩
    by_cases hk : k = ev
    · subst hk
      simp only [entriesSet, if_pos rfl, lookupEntry, if_neg hne]
    · simp only [entriesSet, if_neg hk, lookupEntry, ih]

theorem entriesSet_map_fst_of_some {es : List (String × Nat)} {ev : String}
    {a : Nat} (aid : Nat) (h : lookupEntry es ev = some a) :
    (entriesSet es ev aid).map Prod.fst = es.map Prod.fst := by
  induction es with
  | nil => simp [lookupEntry] at h
  | cons p rest ih =>
    rcases p with ⟨k, v⟩
    by_cases hk : k = ev
    · simp [entriesSet, hk]
    · simp only [lookupEntry, if_neg hk] at h
      simp [entriesSet, hk, ih h]

theorem entriesSet_map_fst_of_none {es : List (String × Nat)} {ev : String}
    (aid : Nat) (h : lookupEntry es ev = none) :
    (entriesSet es ev aid).map Prod.fst = es.map Prod.fst ++ [ev] := by
  induction es with
  | nil => simp [entriesSet]
  | cons p rest ih =>
    rcases p with ⟨k, v⟩
    by_cases hk : k = ev
    · subst hk; simp [lookupEntry] at h
    · simp only [lookupEntry, if_neg hk] at h
      simp [entriesSet, hk, ih h]

theorem mem_entriesSet {es : List (String × Nat)} {ev : String} {aid : Nat}
    {q : String × Nat} (h : q ∈ entriesSet es ev aid) :
    q = (ev, aid) ∨ q ∈ es := by
  induction es with
  | nil => simpa [entriesSet] using h
  | cons p rest ih =>
    rcases p with ⟨k, v⟩
    by_cases hk : k = ev
    · rw [entriesSet, if_pos hk] at h
      rcases List.mem_cons.mp h with rfl | hm
      · exact Or.inl rfl
      · exact Or.inr (List.mem_cons_of_mem _ hm)
    · rw [entriesSet, if_neg hk] at h
      rcases List.mem_cons.mp h with rfl | hm
      · exact Or.inr (List.mem_cons_self _ _)
      · rcases ih hm with h' | h'
        · exact Or.inl h'
        · exact Or.inr (List.mem_cons_of_mem _ h')

theorem lookupEntry_entriesDelete_ne {es : List (String × Nat)}
    {ev ev' : String} (h : ev' ≠ ev) :
    lookupEntry (entriesDelete es ev) ev' = lookupEntry es ev' := by
  induction es with
  | nil => rfl
  | cons p rest ih =>
    rcases p with ⟨k, v⟩
    show lookupEntry (List.filter _ ((k, v) :: rest)) ev' = _
    rw [List.filter_cons]
    by_cases hk : k = ev
    · subst hk
      rw [if_neg (by simp)]
      show lookupEntry (entriesDelete rest k) ev' = _
      rw [ih]
      have hke : k ≠ ev' := fun hh => h hh.symm
      simp [lookupEntry, hke]
    · rw [if_pos (by simp [hk])]
      show lookupEntry ((k, v) :: entriesDelete rest ev) ev' = _
      by_cases hk' : k = ev'
      · simp [lookupEntry, hk']
      · simp only [lookupEntry, if_neg hk']
        exact ih

theorem lookupEntry_entriesDelete_self (es : List (String × Nat))
    (ev : String) : lookupEntry (entriesDelete es ev) ev = none := by
  rw [lookupEntry_none_iff]
  intro hm
  rcases List.mem_map.mp hm with ⟨q, hq, hq1⟩
  have := List.of_mem_filter hq
  simp only [decide_eq_true_eq] at this
  exact this (by rw [hq1])

theorem entriesDelete_sublist (es : List (String × Nat)) (ev : String) :
    List.Sublist (entriesDelete es ev) es :=
  List.filter_sublist es

theorem mem_entriesDelete {es : List (String × Nat)} {ev : String}
    {q : String × Nat} (h : q ∈ entriesDelete es ev) : q ∈ es :=
  List.mem_of_mem_filter h

theorem heapLookup_heapSet_self {hp : List (Nat × List Listener)} {a : Nat}
    {w : List Listener} (v : List Listener) (h : heapLookup hp a = some w) :
    heapLookup (heapSet hp a v) a = some v := by
  induction hp with
  | nil => simp [heapLookup] at h
  | cons p rest ih =>
    rcases p with ⟨k, u⟩
    show heapLookup (if k = a then (k, v) :: rest else (k, u) :: heapSet rest a v) a = _
    by_cases hk : k = a
    · rw [if_pos hk]
      simp [heapLookup, hk]
    · rw [if_neg hk]
      simp only [heapLookup, if_neg hk]
      simp only [heapLookup, if_neg hk] at h
      exact ih h

theorem heapLookup_heapSet_ne {a b : Nat} (hp : List (Nat × List Listener))
    (v : List Listener) (h : b ≠ a) :
    heapLookup (heapSet hp a v) b = heapLookup hp b := by
  induction hp with
  | nil => rfl
  | cons p rest ih =>
    rcases p with ⟨k, u⟩
    show heapLookup (if k = a then (k, v) :: rest else (k, u) :: heapSet rest a v) b = _
    by_cases hk : k = a
    · rw [if_pos hk]
      have hkb : k ≠ b := fun hh => h (hh ▸ hk)
      simp [heapLookup, hkb]
    · rw [if_neg hk]
      simp only [heapLookup]
      by_cases hk' : k = b
      · simp [hk']
      · simp only [if_neg hk']
        exact ih

theorem heapSet_map_fst (hp : List (Nat × List Listener)) (a : Nat)
    (v : List Listener) : (heapSet hp a v).map Prod.fst = hp.map Prod.fst := by
  induction hp with
  | nil => rfl
  | cons p rest ih =>
    rcases p with ⟨k, u⟩
    show (if k = a then (k, v) :: rest else (k, u) :: heapSet rest a v).map
        Prod.fst = _
    by_cases hk : k = a
    · rw [if_pos hk]
      simp
    · rw [if_neg hk]
      simp [ih]

theorem heapLookup_append_some {hp : List (Nat × List Listener)} {a : Nat}
    {w : List Listener} (l2 : List (Nat × List Listener))
    (h : heapLookup hp a = some w) : heapLookup (hp ++ l2) a = some w := by
  induction hp with
  | nil => simp [heapLookup] at h
  | cons p rest ih =>
    rcases p with ⟨k, u⟩
    show heapLookup ((k, u) :: (rest ++ l2)) a = some w
    by_cases hk : k = a
    · simp only [heapLookup, if_pos hk] at h ⊢
      exact h
    · simp only [heapLookup, if_neg hk] at h ⊢
      exact ih h

theorem heapLookup_append_fresh {hp : List (Nat × List Listener)} {a : Nat}
    (v : List Listener) (h : a ∉ hp.map Prod.fst) :
    heapLookup (hp ++ [(a, v)]) a = some v := by
  induction hp with
  | nil => simp [heapLookup]
  | cons p rest ih =>
    rcases p with ⟨k, u⟩
    have hk : k ≠ a := by
      rintro rfl
      exact h (List.mem_map_of_mem Prod.fst (List.mem_cons_self _ _))
    simp only [List.cons_append, heapLookup, if_neg hk]
    exact ih (fun hm => h (List.mem_cons_of_mem _ hm))

/-! Preservation of registry well-formedness. -/

theorem heapLookup_isSome_of_wf {bus : Bus} (h : busWF bus)
    {q : String × Nat} (hq : q ∈ bus.entries) :
    ∃ w, heapLookup bus.heap q.2 = some w ∧ w ≠ [] := by
  rcases h with ⟨-, -, h3⟩
  have hval := h3 q hq
  cases hh : heapLookup bus.heap q.2 with
  | none => rw [hh] at hval; simp at hval
  | some w =>
    rw [hh] at hval
    exact ⟨w, rfl, by simpa using hval⟩

theorem wf_push (bus : Bus) (aid : Nat) (ls : List Listener) (nl : Nat)
    (h : busWF bus) (hne : ls ≠ []) :
    busWF { bus with heap := heapSet bus.heap aid ls, nextLid := nl } := by
  obtain ⟨h1, h2, h3⟩ := h
  refine ⟨h1, ?_, ?_⟩
  · intro q hq
    have hk : q.1 ∈ (heapSet bus.heap aid ls).map Prod.fst :=
      List.mem_map_of_mem Prod.fst hq
    rw [heapSet_map_fst] at hk
    rcases List.mem_map.mp hk with ⟨r, hr, hr1⟩
    exact hr1 ▸ h2 r hr
  · intro q hq
    by_cases hqa : q.2 = aid
    · rcases heapLookup_isSome_of_wf ⟨h1, h2, h3⟩ hq with ⟨w, hw, -⟩
      rw [hqa] at hw ⊢
      rw [heapLookup_heapSet_self ls hw]
      simpa using hne
    · rw [heapLookup_heapSet_ne _ _ hqa]
      exact h3 q hq

theorem wf_delete (bus : Bus) (ev : String) (h : busWF bus) :
    busWF { bus with entries := entriesDelete bus.entries ev } := by
  obtain ⟨h1, h2, h3⟩ := h
  refine ⟨?_, h2, ?_⟩
  · exact h1.sublist ((entriesDelete_sublist bus.entries ev).map Prod.fst)
  · intro q hq
    exact h3 q (mem_entriesDelete hq)

theorem wf_setFresh (bus : Bus) (ev : String) (ls : List Listener) (nl : Nat)
    (h : busWF bus) (hne : ls ≠ []) :
    busWF { entries := entriesSet bus.entries ev bus.nextArr
            heap := bus.heap ++ [(bus.nextArr, ls)]
            nextArr := bus.nextArr + 1
            nextLid := nl } := by
  obtain ⟨h1, h2, h3⟩ := h
  have hfresh : bus.nextArr ∉ bus.heap.map Prod.fst := by
    intro hm
    rcases List.mem_map.mp hm with ⟨r, hr, hr1⟩
    exact absurd (hr1 ▸ h2 r hr) (lt_irrefl _)
  refine ⟨?_, ?_, ?_⟩
  · cases hl : lookupEntry bus.entries ev with
    | some a => rw [entriesSet_map_fst_of_some _ hl]; exact h1
    | none =>
      rw [entriesSet_map_fst_of_none _ hl]
      have hev : ev ∉ bus.entries.map Prod.fst := lookupEntry_none_iff.mp hl
      rw [List.nodup_append]
      refine ⟨h1, List.nodup_singleton ev, ?_⟩
      intro x hx hx'
      rcases List.mem_singleton.mp hx' with rfl
      exact hev hx
  · intro q hq
    rcases List.mem_append.mp hq with hq | hq
    · exact Nat.lt_succ_of_lt (h2 q hq)
    · rcases List.mem_singleton.mp hq with rfl
      exact Nat.lt_succ_self _
  · intro q hq
    rcases mem_entriesSet hq with rfl | hq
    · show ((heapLookup (bus.heap ++ [(bus.nextArr, ls)]) bus.nextArr).getD []) ≠ []
      rw [heapLookup_append_fresh ls hfresh]
      simpa using hne
    · rcases heapLookup_isSome_of_wf ⟨h1, h2, h3⟩ hq with ⟨w, hw, hwne⟩
      show ((heapLookup (bus.heap ++ [(bus.nextArr, ls)]) q.2).getD []) ≠ []
      rw [heapLookup_append_some _ hw]
      simpa using hwne

theorem wf_busOn (bus : Bus) (ev : String) (cb : Nat) (o : Bool) (p : Int)
    (h : busWF bus) : busWF (busOn bus ev cb o p) := by
  unfold busOn
  cases hl : lookupEntry bus.entries ev with
  | some aid =>
    dsimp only
    exact wf_push bus aid _ _ h (by simp)
  | none =>
    dsimp only
    exact wf_setFresh bus ev _ _ h (by simp)

theorem wf_busOff (bus : Bus) (ev : String) (cb : Option Nat)
    (h : busWF bus) : busWF (busOff bus ev cb) := by
  unfold busOff
  cases hl : lookupEntry bus.entries ev with
  | none => exact h
  | some aid =>
    cases cb with
    | none => exact wf_delete bus ev h
    | some c =>
      dsimp only
      split
      · exact wf_delete bus ev h
      · next hne =>
        exact wf_setFresh bus ev _ _ h
          (fun hh => hne (by rw [hh]; rfl))

theorem wf_busClear (bus : Bus) (h : busWF bus) : busWF (busClear bus) := by
  obtain ⟨-, h2, -⟩ := h
  refine ⟨by simp [busClear], h2, ?_⟩
  intro q hq
  simp [busClear] at hq

theorem wf_runAct (bus : Bus) (a : BusAct) (h : busWF bus) :
    busWF (runAct bus a) := by
  cases a with
  | actOn ev cb o p => exact wf_busOn bus ev cb o p h
  | actOff ev cb => exact wf_busOff bus ev cb h

theorem wf_runActs (acts : List BusAct) (bus : Bus) (h : busWF bus) :
    busWF (runActs bus acts) := by
  induction acts generalizing bus with
  | nil => exact h
  | cons a rest ih => exact ih (runAct bus a) (wf_runAct bus a h)

theorem wf_dispatchLoop (env : CbEnv) (ls : List Listener) (bus : Bus)
    (h : busWF bus) : busWF (dispatchLoop env ls bus).bus := by
  induction ls generalizing bus with
  | nil => exact h
  | cons l rest ih =>
    exact ih (runActs bus (env l.cbId).acts) (wf_runActs _ _ h)

theorem wf_busEmit (env : CbEnv) (bus : Bus) (ev : String) (d : Int)
    (h : busWF bus) : busWF (busEmit env bus ev d).bus := by
  unfold busEmit
  cases hl : lookupEntry bus.entries ev with
  | none => exact h
  | some aid =>
    dsimp only
    split
    · exact h
    · split
      · exact wf_dispatchLoop env _ bus h
      · split
        · exact wf_delete _ ev (wf_dispatchLoop env _ bus h)
        · next hne =>
          exact wf_setFresh _ ev _ _ (wf_dispatchLoop env _ bus h)
            (fun hh => hne (by rw [hh]; rfl))

theorem wf_runOp (env : CbEnv) (bus : Bus) (op : BusOp) (h : busWF bus) :
    busWF (runOp env bus op) := by
  cases op with
  | opOn ev cb o p => exact wf_busOn bus ev cb o p h
  | opOnce ev cb => exact wf_busOn bus ev cb true 0 h
  | opOff ev cb => exact wf_busOff bus ev cb h
  | opEmit ev d => exact wf_busEmit env bus ev d h
  | opClear => exact wf_busClear bus h

theorem wf_runOps (env : CbEnv) (ops : List BusOp) (bus : Bus)
    (h : busWF bus) : busWF (runOps env bus ops) := by
  induction ops generalizing bus with
  | nil => exact h
  | cons op rest ih => exact ih (runOp env bus op) (wf_runOp env bus op h)

theorem wf_emptyBus : busWF emptyBus := by
  refine ⟨by simp [emptyBus], ?_, ?_⟩ <;> intro q hq <;> simp [emptyBus] at hq

/-! Counting and `off` characterisation lemmas. -/

theorem busCount_zero_iff {bus : Bus} (h : busWF bus) (ev : String) :
    busCount bus (some ev) = 0 ↔ lookupEntry bus.entries ev = none := by
  cases hl : lookupEntry bus.entries ev with
  | none => simp [busCount, hl]
  | some aid =>
    simp only [busCount, hl]
    constructor
    · intro hz
      exfalso
      rcases heapLookup_isSome_of_wf h (lookupEntry_mem hl) with ⟨w, hw, hwne⟩
      rw [hw] at hz
      simp only [Option.getD_some, List.length_eq_zero] at hz
      exact hwne hz
    · intro hc
      simp at hc

theorem busCount_total_eq {bus : Bus} (h : busWF bus) :
    busCount bus none =
      (bus.entries.map (fun q => busCount bus (some q.1))).sum := by
  obtain ⟨h1, -, -⟩ := h
  show (bus.entries.map
      (fun p => ((heapLookup bus.heap p.2).getD []).length)).sum = _
  congr 1
  apply List.map_congr_left
  intro q hq
  have hlk : lookupEntry bus.entries q.1 = some q.2 := by
    rcases q with ⟨qe, qa⟩
    exact lookupEntry_eq_of_mem_nodup h1 hq
  simp [busCount, hlk]

theorem listenersOf_busOff_self {bus : Bus} (h : busWF bus) (ev : String)
    (c : Nat) :
    listenersOf (busOff bus ev (some c)) ev =
      (listenersOf bus ev).filter (fun l => l.cbId ≠ c) := by
  unfold busOff
  cases hl : lookupEntry bus.entries ev with
  | none => simp [listenersOf, hl]
  | some aid =>
    dsimp only
    split
    · next hemp =>
      have hres := List.isEmpty_iff.mp hemp
      simp only [listenersOf, hl, lookupEntry_entriesDelete_self]
      exact hres.symm
    · simp only [listenersOf, hl, lookupEntry_entriesSet_self]
      have hfresh : bus.nextArr ∉ bus.heap.map Prod.fst := by
        intro hm
        rcases List.mem_map.mp hm with ⟨r, hr, hr1⟩
        exact absurd (hr1 ▸ h.2.1 r hr) (lt_irrefl _)
      rw [heapLookup_append_fresh _ hfresh]
      rfl

theorem listenersOf_busOff_other {bus : Bus} (h : busWF bus) {ev ev' : String}
    (c : Option Nat) (hne : ev' ≠ ev) :
    listenersOf (busOff bus ev c) ev' = listenersOf bus ev' := by
  unfold busOff
  cases hl : lookupEntry bus.entries ev with
  | none => rfl
  | some aid =>
    cases c with
    | none =>
      simp only [listenersOf, lookupEntry_entriesDelete_ne hne]
    | some cb =>
      dsimp only
      split
      · simp only [listenersOf, lookupEntry_entriesDelete_ne hne]
      · simp only [listenersOf, lookupEntry_entriesSet_ne _ hne]
        cases hl' : lookupEntry bus.entries ev' with
        | none => rfl
        | some aid' =>
          rcases heapLookup_isSome_of_wf h (lookupEntry_mem hl') with
            ⟨w, hw, -⟩
          have hw' : heapLookup bus.heap aid' = some w := hw
          dsimp only
          rw [heapLookup_append_some _ hw', hw']

/-! Concrete callback environments used in the claim instances. -/

/-- Callbacks that neither re-enter the bus nor throw. -/
def envInert : CbEnv := fun _ => ⟨[], false⟩

/-- Every callback throws when invoked. -/
def envThrowAll : CbEnv := fun _ => ⟨[], true⟩

/-- Callback 1 throws when invoked; all others run normally. -/
def envThrowFirst : CbEnv := fun n => ⟨[], n == 1⟩

/-- Callback 1 registers callback 2 on "x" while running; others inert. -/
def envRegister : CbEnv :=
  fun n => if n = 1 then ⟨[BusAct.actOn "x" 2 false 0], false⟩ else ⟨[], false⟩

/-- C1: after any sequence of `on`/`once`/`off` calls, the callbacks invoked
by `emit` run as a stable sort of the registered listeners by descending
priority: the invocation trace is a permutation of the registration list, it
is pairwise descending in `priority`, and listeners of equal priority keep
their registration order (the filter at each priority is unchanged); in
particular after subscribing A (callback 1, priority 0), then B (callback 2,
priority 5), then C (callback 3, priority 0) to "x", `emit("x", 1)` invokes
B, then A, then C. -/
theorem c1_emit_priority_order :
    (∀ (acts : List BusAct) (env : CbEnv) (ev : String) (d : Int),
      List.Perm (busEmit env (runActs emptyBus acts) ev d).trace
          (listenersOf (runActs emptyBus acts) ev) ∧
      (busEmit env (runActs emptyBus acts) ev d).trace.Pairwise
          (fun a b => b.priority ≤ a.priority) ∧
      (∀ p : Int,
        (busEmit env (runActs emptyBus acts) ev d).trace.filter
            (fun l => l.priority == p) =
          (listenersOf (runActs emptyBus acts) ev).filter
            (fun l => l.priority == p))) ∧
    (busEmit envInert
        (busOn (busOn (busOn emptyBus "x" 1 false 0) "x" 2 false 5)
          "x" 3 false 0) "x" 1).trace.map Listener.cbId = [2, 1, 3] := by
  constructor
  · intro acts env ev d
    rw [busEmit_trace]
    exact ⟨sortListeners_perm _, sortListeners_pairwise _,
      fun p => sortListeners_filter _ p⟩
  · rfl

/-- C2 (code bug): a `once` subscription whose callback throws is never
removed, because `emit` marks a listener for removal only on the line after
the callback call inside the `try` block, which the throw skips; the listener
therefore fires again on every later `emit`.  Callback 1 is registered via
`once` and always throws: both the first and the second `emit` invoke it and
it is still registered afterwards, contradicting "invoked by exactly one
emit". -/
theorem c2_once_throwing_callback_refires :
    (busEmit envThrowAll (busOnce emptyBus "x" 1) "x" 0).trace.map
        Listener.cbId = [1] ∧
    (busEmit envThrowAll
        (busEmit envThrowAll (busOnce emptyBus "x" 1) "x" 0).bus
        "x" 0).trace.map Listener.cbId = [1] ∧
    busCount (busEmit envThrowAll
        (busEmit envThrowAll (busOnce emptyBus "x" 1) "x" 0).bus "x" 0).bus
      (some "x") = 1 :=
  ⟨rfl, rfl, rfl⟩

/-- C3: a throwing callback is isolated: whatever the callbacks' throw
behaviour, `emit` invokes exactly the sorted snapshot (so every remaining
callback of the dispatch still runs after a throw), every subscribed listener
is invoked, and the failures are only logged — `errors` collects exactly the
throwing callbacks in invocation order.  `busEmit` is a total function, which
embeds "emit returns normally to its caller". -/
theorem c3_emit_isolates_callback_errors :
    ∀ (env : CbEnv) (bus : Bus) (ev : String) (d : Int),
      (busEmit env bus ev d).trace = sortListeners (listenersOf bus ev) ∧
      (∀ l, l ∈ listenersOf bus ev → l ∈ (busEmit env bus ev d).trace) ∧
      (busEmit env bus ev d).errors =
        ((busEmit env bus ev d).trace.filter
          (fun l => (env l.cbId).throws)).map Listener.cbId := by
  intro env bus ev d
  refine ⟨busEmit_trace env bus ev d, ?_, ?_⟩
  · intro l hl
    rw [busEmit_trace]
    exact ((sortListeners_perm _).mem_iff).mpr hl
  · rw [busEmit_errors, busEmit_trace]

/-- Witness for C3: callback 1 (priority 5) throws, yet the later listener of
callback 2 is still invoked by the same dispatch. -/
theorem c3_witness :
    (⟨1, 2, false, 0⟩ : Listener) ∈ listenersOf
        (busOn (busOn emptyBus "x" 1 false 5) "x" 2 false 0) "x" ∧
    (⟨1, 2, false, 0⟩ : Listener) ∈
      (busEmit envThrowFirst
        (busOn (busOn emptyBus "x" 1 false 5) "x" 2 false 0) "x" 0).trace :=
  ⟨by decide,
    (c3_emit_isolates_callback_errors envThrowFirst
      (busOn (busOn emptyBus "x" 1 false 5) "x" 2 false 0) "x" 0).2.1
      ⟨1, 2, false, 0⟩ (by decide)⟩

/-- C4 (counterexample): register the same callback (function id 7) twice for
"x"; the count is 2, but invoking one registration's unsubscribe function
(which runs `off("x", callback)`) leaves 0 registrations, not the 1 that
"removes exactly the one subscription ... leaves the other registrations in
place" requires. -/
theorem c4_counterexample :
    busCount (busOn (busOn emptyBus "x" 7 false 0) "x" 7 false 0)
        (some "x") = 2 ∧
    busCount (busOff (busOn (busOn emptyBus "x" 7 false 0) "x" 7 false 0)
        "x" (some 7)) (some "x") = 0 :=
  ⟨rfl, rfl⟩

/-- C4 (amended): the unsubscribe closure returned by `on(event, cb)` runs
`off(event, cb)`, which removes every subscription of `event` whose callback
reference equals `cb` (so when the same callback was registered twice, both
registrations go), leaves all other events' subscriptions untouched, and is
idempotent — invoking it a second time has no additional effect. -/
theorem c4_unsubscribe_removes_by_callback {bus : Bus} (h : busWF bus)
    (ev : String) (c : Nat) :
    listenersOf (busOff bus ev (some c)) ev =
      (listenersOf bus ev).filter (fun l => l.cbId ≠ c) ∧
    (∀ ev', ev' ≠ ev →
      listenersOf (busOff bus ev (some c)) ev' = listenersOf bus ev') ∧
    (∀ ev', listenersOf (busOff (busOff bus ev (some c)) ev (some c)) ev' =
      listenersOf (busOff bus ev (some c)) ev') := by
  refine ⟨listenersOf_busOff_self h ev c, fun ev' hne =>
    listenersOf_busOff_other h _ hne, ?_⟩
  intro ev'
  by_cases hne : ev' = ev
  · subst hne
    rw [listenersOf_busOff_self (wf_busOff bus ev' (some c) h) ev' c,
      listenersOf_busOff_self h ev' c, List.filter_filter]
    apply List.filter_congr
    intro a ha
    simp
  · exact listenersOf_busOff_other (wf_busOff bus ev (some c) h) _ hne

/-- Witness for C4's amended claim at a two-event registry. -/
theorem c4_witness :
    busWF (busOn (busOn emptyBus "x" 7 false 0) "y" 8 false 0) ∧
    listenersOf (busOff (busOn (busOn emptyBus "x" 7 false 0)
        "y" 8 false 0) "x" (some 7)) "x" =
      (listenersOf (busOn (busOn emptyBus "x" 7 false 0) "y" 8 false 0)
        "x").filter (fun l => l.cbId ≠ 7) :=
  ⟨by decide,
    (c4_unsubscribe_removes_by_callback (by decide) "x" 7).1⟩

/-- C9: the registry never keeps an event name with zero subscriptions: after
any sequence of `on`/`once`/`off`/`emit`/`clear` operations from a fresh bus
the well-formedness invariant holds (unique keys, live non-empty array per
entry), and on any well-formed registry the per-event count is 0 exactly for
absent events while the no-argument count equals the sum of the per-event
counts over the registered (hence non-empty) events. -/
theorem c9_registry_no_empty_entries :
    (∀ (env : CbEnv) (ops : List BusOp), busWF (runOps env emptyBus ops)) ∧
    (∀ bus : Bus, busWF bus →
      (∀ ev, busCount bus (some ev) = 0 ↔
        lookupEntry bus.entries ev = none) ∧
      busCount bus none =
        (bus.entries.map (fun q => busCount bus (some q.1))).sum) := by
  constructor
  · intro env ops
    exact wf_runOps env ops emptyBus wf_emptyBus
  · intro bus h
    exact ⟨fun ev => busCount_zero_iff h ev, busCount_total_eq h⟩

/-- Witness for C9 at a concrete two-event registry. -/
theorem c9_witness :
    busWF (busOn (busOn emptyBus "x" 1 false 0) "y" 2 false 0) ∧
    busCount (busOn (busOn emptyBus "x" 1 false 0) "y" 2 false 0) none =
      ((busOn (busOn emptyBus "x" 1 false 0) "y" 2 false 0).entries.map
        (fun q => busCount (busOn (busOn emptyBus "x" 1 false 0)
          "y" 2 false 0) (some q.1))).sum :=
  ⟨by decide, (c9_registry_no_empty_entries.2
    (busOn (busOn emptyBus "x" 1 false 0) "y" 2 false 0) (by decide)).2⟩

/-- C10: `emit` dispatches exactly the snapshot of subscriptions existing
when it was called — a listener is invoked iff it was registered at call
time, so re-entrant registrations and removals during the dispatch neither
add to nor remove from the invoked set.  Concretely: callback 1 registers
callback 2 for "x" during the dispatch; the first `emit` invokes only
callback 1 although the registry then holds 2 listeners, and callback 2
fires on the next `emit`. -/
theorem c10_emit_dispatches_snapshot :
    (∀ (env : CbEnv) (bus : Bus) (ev : String) (d : Int) (l : Listener),
      l ∈ (busEmit env bus ev d).trace ↔ l ∈ listenersOf bus ev) ∧
    ((busEmit envRegister (busOn emptyBus "x" 1 false 0) "x" 0).trace.map
        Listener.cbId = [1] ∧
      busCount (busEmit envRegister (busOn emptyBus "x" 1 false 0)
        "x" 0).bus (some "x") = 2 ∧
      (busEmit envRegister
          (busEmit envRegister (busOn emptyBus "x" 1 false 0) "x" 0).bus
          "x" 0).trace.map Listener.cbId = [1, 2]) := by
  constructor
  · intro env bus ev d l
    rw [busEmit_trace]
    exact (sortListeners_perm _).mem_iff
  · exact ⟨rfl, rfl, rfl⟩

/-! Engine helper lemmas and concrete engine scenarios. -/

theorem engineStartRenderLoop_fields (st : EngineState) :
    (engineStartRenderLoop st).renderer = st.renderer ∧
    (engineStartRenderLoop st).appendedCanvases = st.appendedCanvases ∧
    (engineStartRenderLoop st).isInitialized = st.isInitialized ∧
    (engineStartRenderLoop st).error = st.error ∧
    (engineStartRenderLoop st).scene = st.scene := by
  unfold engineStartRenderLoop
  split <;> simp

/-- Explicit form of the state left by `dispose()`. -/
theorem engineDispose_state (env : CbEnv) (st : EngineState) (bus : Bus) :
    (engineDispose env st bus).state =
      { scene := none, renderer := none, camera := none, controls := none
        isInitialized := false, isRendering := false, error := none
        container := none
        appendedCanvases :=
          match st.renderer with
          | none => st.appendedCanvases
          | some rid => st.appendedCanvases.filter (fun x => x ≠ rid)
        resizeObserver := false, animationId := none
        disposedResources :=
          match st.scene with
          | none => st.disposedResources
          | some s => st.disposedResources ++
              Obj.disposalsList
                (s.children.filter (fun o => !o.isPermanentHelper))
        frames := st.frames, nextId := st.nextId } := by
  unfold engineDispose engineStopRenderLoop engineClear
  cases hA : st.animationId <;> cases hS : st.scene <;>
    cases hR : st.renderer <;> simp [hA, hS, hR]

/-- The event names published by `dispose()`. -/
theorem engineDispose_published (env : CbEnv) (st : EngineState) (bus : Bus) :
    (engineDispose env st bus).published =
      match st.scene with
      | none => ["engine:disposed"]
      | some _ => ["engine:sceneCleared", "engine:disposed"] := by
  unfold engineDispose engineStopRenderLoop engineClear
  cases hA : st.animationId <;> cases hS : st.scene <;>
    cases hR : st.renderer <;> simp [hA, hS, hR]

/-- A freshly initialized engine over container 0, starting from an empty
bus with inert callbacks. -/
def engineInitOnEmpty : EngineStep :=
  engineInit envInert initialEngineState emptyBus (some 0) true true true

/-- A grid helper carrying geometry resource 100 and material resource 101
(`THREE.GridHelper` is a `LineSegments` with its own geometry/material). -/
def gridHelperObj : Obj := Obj.node 50 ObjKind.gridHelper (some 100) [101] []

/-- The initialized engine after the user adds a grid helper. -/
def engineWithGrid : EngineStep :=
  engineAdd envInert engineInitOnEmpty.state engineInitOnEmpty.bus
    gridHelperObj

/-- C5 (counterexample): calling `initialize` a second time on the already
initialized engine, without an intervening `dispose`, neither fails fast nor
no-ops: it appends a second canvas to the container (two output surfaces are
now attached) and silently replaces the scene by a freshly created one. -/
theorem c5_counterexample :
    (engineInit envInert engineInitOnEmpty.state engineInitOnEmpty.bus
        (some 0) true true true).state.appendedCanvases.length = 2 ∧
    (engineInit envInert engineInitOnEmpty.state engineInitOnEmpty.bus
        (some 0) true true true).state.scene.map Scene.id ≠
      engineInitOnEmpty.state.scene.map Scene.id ∧
    engineInitOnEmpty.state.isInitialized = true := by
  refine ⟨rfl, by decide, rfl⟩

/-- C5 (amended): `initialize` performs no already-initialized check: called
again on any state with a usable WebGL container it succeeds again, appends
one more canvas to the container, reports initialized with no error, and
installs a freshly allocated renderer (distinct from any previously held
renderer id), thereby creating a second resource set. -/
theorem c5_second_initialize_duplicates_resources
    (env : CbEnv) (st : EngineState) (bus : Bus) (c : Nat)
    (aR aRz : Bool) :
    (engineInit env st bus (some c) true aR aRz).state.appendedCanvases.length
        = st.appendedCanvases.length + 1 ∧
    (engineInit env st bus (some c) true aR aRz).state.isInitialized = true ∧
    (engineInit env st bus (some c) true aR aRz).state.renderer =
      some (st.nextId + 1) ∧
    (engineInit env st bus (some c) true aR aRz).state.error = none ∧
    (∀ rid, st.renderer = some rid → rid < st.nextId →
      (engineInit env st bus (some c) true aR aRz).state.renderer ≠
        st.renderer) := by
  have hmain :
      (engineInit env st bus (some c) true aR aRz).state.appendedCanvases =
        st.appendedCanvases ++ [st.nextId + 1] ∧
      (engineInit env st bus (some c) true aR aRz).state.isInitialized =
        true ∧
      (engineInit env st bus (some c) true aR aRz).state.renderer =
        some (st.nextId + 1) ∧
      (engineInit env st bus (some c) true aR aRz).state.error = none := by
    unfold engineInit engineStartRenderLoop
    dsimp only
    rw [if_neg (by simp)]
    cases aR
    · simp
    · dsimp only
      split
      · split <;> simp
      · simp_all
  refine ⟨by rw [hmain.1]; simp, hmain.2.1, hmain.2.2.1, hmain.2.2.2, ?_⟩
  intro rid hr hlt
  rw [hmain.2.2.1, hr]
  intro hcon
  have : st.nextId + 1 = rid := by injection hcon
  omega

/-- Witness for C5's amended claim: a second `initialize` on the initialized
engine replaces the previously held renderer. -/
theorem c5_witness :
    engineInitOnEmpty.state.renderer = some 1 ∧
    (1 : Nat) < engineInitOnEmpty.state.nextId ∧
    (engineInit envInert engineInitOnEmpty.state engineInitOnEmpty.bus
        (some 0) true true true).state.renderer ≠
      engineInitOnEmpty.state.renderer :=
  ⟨rfl, by decide,
    (c5_second_initialize_duplicates_resources envInert
      engineInitOnEmpty.state engineInitOnEmpty.bus 0 true true).2.2.2.2 1
      rfl (by decide)⟩

/-- C6 (counterexample): on the initialized engine a single `dispose`
publishes `["engine:sceneCleared", "engine:disposed"]`, but the two-call
sequence publishes a second `engine:disposed` (the final emit of `dispose`
runs unconditionally), so the published event sequences differ. -/
theorem c6_counterexample :
    (engineDispose envInert engineInitOnEmpty.state
        engineInitOnEmpty.bus).published ++
      (engineDispose envInert
        (engineDispose envInert engineInitOnEmpty.state
          engineInitOnEmpty.bus).state
        (engineDispose envInert engineInitOnEmpty.state
          engineInitOnEmpty.bus).bus).published ≠
    (engineDispose envInert engineInitOnEmpty.state
        engineInitOnEmpty.bus).published := by
  decide

/-- C6 (amended): a second `dispose` throws no exception and leaves the state
exactly as the first left it — `isInitialized` false and scene, renderer,
camera and controls all null — but it is not silent on the bus: it publishes
one more `engine:disposed` event, so the two-call event sequence strictly
extends the single-call one. -/
theorem c6_dispose_idempotent_state (env : CbEnv) (st : EngineState)
    (bus : Bus) :
    (engineDispose env (engineDispose env st bus).state
        (engineDispose env st bus).bus).state =
      (engineDispose env st bus).state ∧
    (engineDispose env (engineDispose env st bus).state
        (engineDispose env st bus).bus).published = ["engine:disposed"] ∧
    (engineDispose env st bus).state.isInitialized = false ∧
    (engineDispose env st bus).state.scene = none ∧
    (engineDispose env st bus).state.renderer = none ∧
    (engineDispose env st bus).state.camera = none ∧
    (engineDispose env st bus).state.controls = none := by
  refine ⟨?_, ?_, ?_, ?_, ?_, ?_, ?_⟩
  · rw [engineDispose_state env (engineDispose env st bus).state,
      engineDispose_state env st bus]
  · rw [engineDispose_published, engineDispose_state]
  · rw [engineDispose_state]
  · rw [engineDispose_state]
  · rw [engineDispose_state]
  · rw [engineDispose_state]
  · rw [engineDispose_state]

/-- C7 (counterexample): the user's grid helper (geometry 100, material 101)
survives `clear()` as required, but the subsequent `dispose()` never calls
`dispose` on the helper's geometry or material — `dispose` reuses `clear`,
which skips the permanent helpers, and then merely drops the scene reference
— so the helper's graphics resources are not freed during teardown. -/
theorem c7_counterexample :
    (engineClear envInert engineWithGrid.state
        engineWithGrid.bus).state.scene.map
      (fun s => s.children.map Obj.id) = some [4, 5, 6, 50] ∧
    (100 : Nat) ∉ (engineDispose envInert engineWithGrid.state
        engineWithGrid.bus).state.disposedResources ∧
    (101 : Nat) ∉ (engineDispose envInert engineWithGrid.state
        engineWithGrid.bus).state.disposedResources := by
  refine ⟨rfl, by decide, by decide⟩

/-- C7 (amended): `clear()` removes from the scene exactly the children that
are not lights/grid/axes helpers, disposing precisely the removed subtrees'
mesh geometries and materials, and publishes one `engine:sceneCleared`;
`dispose()` performs the same resource disposal as `clear()` — the permanent
helpers' geometries and materials are never disposed, the scene reference is
simply dropped. -/
theorem c7_clear_preserves_helpers (env : CbEnv) (st : EngineState)
    (bus : Bus) (s : Scene) (h : st.scene = some s) :
    (engineClear env st bus).state.scene =
      some ⟨s.id, s.children.filter (fun o => o.isPermanentHelper)⟩ ∧
    (engineClear env st bus).state.disposedResources =
      st.disposedResources ++
        Obj.disposalsList
          (s.children.filter (fun o => !o.isPermanentHelper)) ∧
    (engineClear env st bus).published = ["engine:sceneCleared"] ∧
    (engineDispose env st bus).state.disposedResources =
      st.disposedResources ++
        Obj.disposalsList
          (s.children.filter (fun o => !o.isPermanentHelper)) := by
  refine ⟨?_, ?_, ?_, ?_⟩
  · unfold engineClear
    rw [h]
  · unfold engineClear
    rw [h]
  · unfold engineClear
    rw [h]
  · rw [engineDispose_state, h]

/-- Witness for C7's amended claim at the grid-helper scenario. -/
theorem c7_witness :
    engineWithGrid.state.scene =
      some ⟨0, [Obj.node 4 ObjKind.light none [] [],
        Obj.node 5 ObjKind.light none [] [],
        Obj.node 6 ObjKind.light none [] [], gridHelperObj]⟩ ∧
    (engineClear envInert engineWithGrid.state engineWithGrid.bus).state.scene
      = some ⟨0, [Obj.node 4 ObjKind.light none [] [],
          Obj.node 5 ObjKind.light none [] [],
          Obj.node 6 ObjKind.light none [] [], gridHelperObj]⟩ :=
  ⟨rfl, by
    have h := (c7_clear_preserves_helpers envInert engineWithGrid.state
      engineWithGrid.bus
      ⟨0, [Obj.node 4 ObjKind.light none [] [],
        Obj.node 5 ObjKind.light none [] [],
        Obj.node 6 ObjKind.light none [] [], gridHelperObj]⟩ rfl).1
    rw [h]
    rfl⟩

/-- The state reached only outside the engine lifecycle: scene, renderer and
camera present but no interaction controls. -/
def engineStateNoControls : EngineState :=
  { initialEngineState with
    scene := some ⟨0, []⟩
    renderer := some 1
    camera := some 2 }

/-- C8 (counterexample): `render()` only guards on scene, camera and
renderer; on a state where the interaction controls are absent but the other
three resources are present it still draws a frame, contradicting "if and
only if all four core resources are present". -/
theorem c8_counterexample :
    engineStateNoControls.controls = none ∧
    (engineRender envInert engineStateNoControls emptyBus).state.frames =
      engineStateNoControls.frames + 1 :=
  ⟨rfl, rfl⟩

/-- C8 (amended): `render()` draws one frame iff scene, camera and renderer
are all present (the interaction controls are not consulted), otherwise it
silently leaves state and bus untouched; when a frame is drawn, the
`engine:render` event is published exactly when the bus reports at least one
listener for it at that moment. -/
theorem c8_render_requires_three_resources (env : CbEnv) (st : EngineState)
    (bus : Bus) :
    (st.scene ≠ none → st.camera ≠ none → st.renderer ≠ none →
      (engineRender env st bus).state.frames = st.frames + 1 ∧
      (engineRender env st bus).published =
        (if 0 < busCount bus (some "engine:render") then ["engine:render"]
          else [])) ∧
    (st.scene = none ∨ st.camera = none ∨ st.renderer = none →
      engineRender env st bus = ⟨st, bus, []⟩) := by
  constructor
  · intro h1 h2 h3
    unfold engineRender
    rw [if_neg (by simp [Option.isNone_iff_eq_none, h1, h2, h3])]
    by_cases hc : 0 < busCount bus (some "engine:render")
    · rw [if_pos hc, if_pos hc]
      exact ⟨rfl, rfl⟩
    · rw [if_neg hc, if_neg hc]
      exact ⟨rfl, rfl⟩
  · intro h
    unfold engineRender
    rw [if_pos]
    rcases h with h | h | h <;> simp [h]

/-- Witness for C8's amended claim: on the freshly initialized engine with an
empty bus, `render` draws a frame and publishes nothing. -/
theorem c8_witness :
    engineInitOnEmpty.state.scene ≠ none ∧
    (engineRender envInert engineInitOnEmpty.state emptyBus).state.frames =
      engineInitOnEmpty.state.frames + 1 :=
  ⟨fun hh => Option.noConfusion hh,
    ((c8_render_requires_three_resources envInert engineInitOnEmpty.state
      emptyBus).1 (fun hh => Option.noConfusion hh)
      (fun hh => Option.noConfusion hh) (fun hh => Option.noConfusion hh)).1⟩
